import Mathlib

/-!
Verification development for the NFL Big-Data trajectory ETL and play-analysis
engine: a shallow embedding of `src/preprocess_data.py` (ZoneCoverageETL) and
`src/calculate_clv.py` (main per-play analysis loop), with theorems settling
the specification claims about the Coordinate Normalizer, Timeline Stitcher,
Kinematics Recoverer, Play Context Resolver, Closing-Velocity Analyzer,
Causality Classifier and the recovery-tax computation.

Floating-point values are modelled as real numbers; a pandas `NaN`-able column
is modelled as `Option ℝ` (resp. `Option String`), with `none` playing the
role of `NaN`.  Python `%` on floats (sign of the divisor) is modelled by
`rmod`, `np.arctan2` by `atan2` below.
-/

namespace NFL

/-- Python / numpy floating `%`: `x % y = x - y * floor (x / y)` (result has
the sign of the divisor). -/
noncomputable def rmod (x y : ℝ) : ℝ := x - y * (⌊x / y⌋ : ℤ)

/-- `np.degrees`. -/
noncomputable def degrees (x : ℝ) : ℝ := x * 180 / Real.pi

/-- `np.radians`. -/
noncomputable def radians (x : ℝ) : ℝ := x * Real.pi / 180

open Classical in
/-- `np.arctan2 y x`, by the usual case split. -/
noncomputable def atan2 (y x : ℝ) : ℝ :=
  if 0 < x then Real.arctan (y / x)
  else if x < 0 ∧ 0 ≤ y then Real.arctan (y / x) + Real.pi
  else if x < 0 ∧ y < 0 then Real.arctan (y / x) - Real.pi
  else if x = 0 ∧ 0 < y then Real.pi / 2
  else if x = 0 ∧ y < 0 then -(Real.pi / 2)
  else 0

lemma rmod_eq_sub (x y : ℝ) (k : ℤ) (hy : 0 < y)
    (h1 : y * k ≤ x) (h2 : x < y * (k + 1)) : rmod x y = x - y * k := by
  have hfloor : (⌊x / y⌋ : ℤ) = k := by
    rw [Int.floor_eq_iff]
    constructor
    · rw [le_div_iff₀ hy]
      linarith [h1]
    · rw [div_lt_iff₀ hy]
      linarith [h2]
  rw [rmod, hfloor]

lemma atan2_zero_pos (x : ℝ) (hx : 0 < x) : atan2 0 x = 0 := by
  simp [atan2, hx, Real.arctan_zero]

lemma atan2_zero_neg (x : ℝ) (hx : x < 0) : atan2 0 x = Real.pi := by
  have hx' : ¬ 0 < x := by linarith
  simp [atan2, hx, hx', Real.arctan_zero]

lemma degrees_pi : degrees Real.pi = 180 := by
  have h := Real.pi_ne_zero
  field_simp [degrees]

lemma degrees_zero : degrees 0 = 0 := by simp [degrees]

/-! ## Rows of the preprocessing pipeline (`preprocess_data.py`)

One row of the per-frame tracking table, with the columns the
`ZoneCoverageETL` reads and writes (`keep_cols`).  Missing (`NaN`) sensor
fields are `none`. -/

@[ext]
structure PRow where
  game_id : ℤ
  play_id : ℤ
  nfl_id : ℤ
  frame_id : ℤ
  x : ℝ
  y : ℝ
  s : Option ℝ
  a : Option ℝ
  dir : Option ℝ
  o : Option ℝ
  player_name : Option String
  player_position : Option String
  player_role : Option String
  player_side : Option String
  play_direction : Option String
  ball_land_x : Option ℝ
  ball_land_y : Option ℝ
  phase : String

/-- The mirrored angle `(angle + 180) % 360` of `normalize_tracking_data`. -/
noncomputable def mirrorAngle (v : ℝ) : ℝ := rmod (v + 180) 360

/-- The row-level mirror of `ZoneCoverageETL.normalize_tracking_data`:
rows whose `play_direction` lower-cases to `"left"` get
`x' = 120 - x`, `y' = 53.3 - y`, `dir/o' = (angle + 180) % 360`, and the
ball-landing point mirrored the same way; all other rows pass through. -/
noncomputable def normRow (r : PRow) : PRow :=
  if r.play_direction.map String.toLower = some "left" then
    { r with
      x := 120 - r.x
      y := 53.3 - r.y
      dir := r.dir.map mirrorAngle
      o := r.o.map mirrorAngle
      ball_land_x := r.ball_land_x.map (fun v => 120 - v)
      ball_land_y := r.ball_land_y.map (fun v => 53.3 - v) }
  else r

/-- `ZoneCoverageETL.normalize_tracking_data` over a whole frame table. -/
noncomputable def normalize_tracking_data (df : List PRow) : List PRow :=
  df.map normRow

lemma mirrorAngle_mirrorAngle (v : ℝ) (h0 : 0 ≤ v) (h1 : v < 360) :
    mirrorAngle (mirrorAngle v) = v := by
  rcases lt_or_le v 180 with hv | hv
  · have e1 : mirrorAngle v = v + 180 := by
      have := rmod_eq_sub (v + 180) 360 0 (by norm_num) (by norm_num; linarith)
        (by norm_num; linarith)
      simpa [mirrorAngle] using this
    have e2 : mirrorAngle (v + 180) = v := by
      have := rmod_eq_sub (v + 180 + 180) 360 1 (by norm_num) (by norm_num; linarith)
        (by norm_num; linarith)
      simp only [mirrorAngle]
      rw [this]; ring
    rw [e1, e2]
  · have e1 : mirrorAngle v = v - 180 := by
      have := rmod_eq_sub (v + 180) 360 1 (by norm_num) (by norm_num; linarith)
        (by norm_num; linarith)
      simp only [mirrorAngle]
      rw [this]; ring
    have e2 : mirrorAngle (v - 180) = v := by
      have := rmod_eq_sub (v - 180 + 180) 360 0 (by norm_num) (by norm_num; linarith)
        (by norm_num; linarith)
      simp only [mirrorAngle]
      rw [this]; ring
    rw [e1, e2]

lemma normRow_not_left {r : PRow}
    (h : ¬ r.play_direction.map String.toLower = some "left") : normRow r = r := by
  simp [normRow, h]

lemma normRow_left {r : PRow}
    (h : r.play_direction.map String.toLower = some "left") :
    normRow r =
    { r with
      x := 120 - r.x
      y := 53.3 - r.y
      dir := r.dir.map mirrorAngle
      o := r.o.map mirrorAngle
      ball_land_x := r.ball_land_x.map (fun v => 120 - v)
      ball_land_y := r.ball_land_y.map (fun v => 53.3 - v) } := by
  rw [normRow, if_pos h]

lemma map_involutive (f : ℝ → ℝ) (d : Option ℝ)
    (h : ∀ v, d = some v → f (f v) = v) : (d.map f).map f = d := by
  cases d with
  | none => rfl
  | some v => simp [h v rfl]

/-- Claim C7: mirroring is an involution on `left`-flagged rows with angles in
`[0, 360)` — applying the Coordinate Normalizer twice restores `x`, `y`,
`dir`, `o` and the ball-landing point exactly — and rows not flagged `left`
are unchanged by each application. -/
theorem C7_normalizer_involution (r : PRow) :
    ((∀ v, r.dir = some v → 0 ≤ v ∧ v < 360) →
     (∀ v, r.o = some v → 0 ≤ v ∧ v < 360) →
     normRow (normRow r) = r)
    ∧ (¬ r.play_direction.map String.toLower = some "left" → normRow r = r) := by
  constructor
  · intro hdir ho
    by_cases hl : r.play_direction.map String.toLower = some "left"
    · have hl' : (normRow r).play_direction.map String.toLower = some "left" := by
        rw [normRow_left hl]; exact hl
      rw [normRow_left hl', normRow_left hl]
      refine PRow.ext rfl rfl rfl rfl (by ring) (by ring) rfl rfl ?_ ?_ rfl rfl rfl
        rfl rfl ?_ ?_ rfl
      · exact map_involutive _ _ (fun v hv => by
          obtain ⟨h0, h1⟩ := hdir v hv
          exact mirrorAngle_mirrorAngle v h0 h1)
      · exact map_involutive _ _ (fun v hv => by
          obtain ⟨h0, h1⟩ := ho v hv
          exact mirrorAngle_mirrorAngle v h0 h1)
      · exact map_involutive _ _ (fun v _ => by ring)
      · exact map_involutive _ _ (fun v _ => by ring)
    · rw [normRow_not_left hl, normRow_not_left hl]
  · exact normRow_not_left

/-- A concrete left-flagged row used by witnesses. -/
noncomputable def leftRow : PRow :=
  { game_id := 1, play_id := 1, nfl_id := 3, frame_id := 1
    x := 30, y := 20, s := some 4, a := some 1, dir := some 90, o := some 270
    player_name := some "A B", player_position := some "CB"
    player_role := some "Defensive Coverage", player_side := some "Defense"
    play_direction := some "left", ball_land_x := some 40, ball_land_y := some 25
    phase := "pre_throw" }

/-- A concrete row without a `left` flag, used by witnesses. -/
noncomputable def rightRow : PRow :=
  { leftRow with play_direction := none }

theorem C7_normalizer_involution_witness :
    normRow (normRow leftRow) = leftRow ∧ normRow rightRow = rightRow := by
  constructor
  · refine (C7_normalizer_involution leftRow).1 ?_ ?_ <;>
      (intro v hv; simp [leftRow] at hv; subst hv; norm_num)
  · refine (C7_normalizer_involution rightRow).2 ?_
    simp [rightRow, leftRow]

/-! ## Timeline Stitcher (`ZoneCoverageETL.process_week_data`, lines 99-126)

The pre-event (`input`) and post-event (`output`) weekly tables are given
already restricted to the valid play keys (the `key_tuple` filters).  The
diagnostic `has_gap` / `missing_metadata` annotations of lines 95-115 and
189-195 only append extra boolean columns and change no modelled column, so
they are not modelled; likewise the play-context left-join of line 129 only
appends play-level context columns. -/

/-- Key of `drop_duplicates(subset=['game_id','play_id','nfl_id','frame_id'])`. -/
def key4 (r : PRow) : ℤ × ℤ × ℤ × ℤ := (r.game_id, r.play_id, r.nfl_id, r.frame_id)

/-- Key of the final `sort_values(['game_id','play_id','frame_id'])`. -/
def key3 (r : PRow) : ℤ × ℤ × ℤ := (r.game_id, r.play_id, r.frame_id)

/-- Grouping key of the per-player/per-play `groupby`. -/
def trackKey (r : PRow) : ℤ × ℤ × ℤ := (r.game_id, r.play_id, r.nfl_id)

def lex4 (a b : ℤ × ℤ × ℤ × ℤ) : Prop :=
  a.1 < b.1 ∨ (a.1 = b.1 ∧ (a.2.1 < b.2.1 ∨ (a.2.1 = b.2.1 ∧
    (a.2.2.1 < b.2.2.1 ∨ (a.2.2.1 = b.2.2.1 ∧ a.2.2.2 ≤ b.2.2.2)))))

def lex3 (a b : ℤ × ℤ × ℤ) : Prop :=
  a.1 < b.1 ∨ (a.1 = b.1 ∧ (a.2.1 < b.2.1 ∨ (a.2.1 = b.2.1 ∧ a.2.2 ≤ b.2.2)))

/-- The ordering of `sort_values(['game_id','play_id','nfl_id','frame_id'])`. -/
def leGPNF (r q : PRow) : Prop := lex4 (key4 r) (key4 q)

/-- The ordering of `sort_values(['game_id','play_id','frame_id'])`. -/
def leGPF (r q : PRow) : Prop := lex3 (key3 r) (key3 q)

instance : DecidableRel leGPNF := fun a b => by
  unfold leGPNF lex4; infer_instance

instance : DecidableRel leGPF := fun a b => by
  unfold leGPF lex3; infer_instance

/-- First row of the play-player group: `player_meta` =
`drop_duplicates(subset=['game_id','play_id','nfl_id'])` keeps the first
occurrence, and the left-merge looks it up by `(game_id, play_id, nfl_id)`. -/
def metaFor (input : List PRow) (g p n : ℤ) : Option PRow :=
  (input.filter (fun q => q.game_id = g ∧ q.play_id = p ∧ q.nfl_id = n)).head?

/-- `output_df.merge(player_meta, on=['game_id','play_id','nfl_id'], how='left')`:
the post-event row receives the pre-event metadata columns (or `NaN` if the
player has no pre-event row). -/
def mergeMeta (input : List PRow) (r : PRow) : PRow :=
  match metaFor input r.game_id r.play_id r.nfl_id with
  | some m =>
    { r with
      player_name := m.player_name, player_position := m.player_position
      player_role := m.player_role, player_side := m.player_side
      play_direction := m.play_direction
      ball_land_x := m.ball_land_x, ball_land_y := m.ball_land_y }
  | none =>
    { r with
      player_name := none, player_position := none
      player_role := none, player_side := none
      play_direction := none
      ball_land_x := none, ball_land_y := none }

/-- `play_offsets`: max pre-event `frame_id` of the play, if the play has any
pre-event rows. -/
def offsetFor (input : List PRow) (g p : ℤ) : Option ℤ :=
  ((input.filter (fun q => q.game_id = g ∧ q.play_id = p)).map PRow.frame_id).max?

/-- The post-event rows after metadata merge, frame shift
(`frame_id + offset.fillna(0)`) and `phase = 'post_throw'` tagging. -/
def postShifted (input output : List PRow) : List PRow :=
  output.map (fun r =>
    let r1 := mergeMeta input r
    { r1 with
      frame_id := r1.frame_id + (offsetFor input r1.game_id r1.play_id).getD 0
      phase := "post_throw" })

/-- The pre-event rows tagged `phase = 'pre_throw'`. -/
def preTagged (input : List PRow) : List PRow :=
  input.map (fun r => { r with phase := "pre_throw" })

/-- The concatenated stitched table (`pd.concat([input_df, output_df])`). -/
def stitched (input output : List PRow) : List PRow :=
  preTagged input ++ postShifted input output

/-! ## Kinematics Recoverer (`process_week_data`, lines 131-178) -/

/-- `s_derived = sqrt(dx² + dy²) / 0.1` from the previous frame of the same
player track (`groupby(...).diff()`); `none` on the first frame of a track. -/
noncomputable def sDerOf (prev : Option PRow) (r : PRow) : Option ℝ :=
  prev.map (fun q => Real.sqrt ((r.x - q.x) ^ 2 + (r.y - q.y) ^ 2) / 0.1)

/-- `dir_derived_nfl = (90 - degrees(arctan2(dy, dx))) % 360`. -/
noncomputable def dirDerOf (prev : Option PRow) (r : PRow) : Option ℝ :=
  prev.map (fun q => rmod (90 - degrees (atan2 (r.y - q.y) (r.x - q.x))) 360)

/-- pandas `Series.fillna`: keep the value if present, else use the fallback. -/
def fillna (v d : Option ℝ) : Option ℝ :=
  match v with
  | some x => some x
  | none => d

/-- The most recent already-processed row of the same `(game_id, play_id,
nfl_id)` track: the row `groupby(...).diff()` and `groupby(...).ffill()`
look back to. -/
def lastTrack (done : List PRow) (r : PRow) : Option PRow :=
  (done.filter (fun q => trackKey q = trackKey r)).getLast?

open Classical in
/-- One row of the self-healing logic: fill `s` from `s_derived`, `dir` from
`dir_derived_nfl`, and `o` by the fast-player rule (`o = dir` when the filled
speed exceeds 2.0 and `o` is missing) followed by the per-track forward fill. -/
noncomputable def healRow (prev : Option PRow) (r : PRow) : PRow :=
  let sf := fillna r.s (sDerOf prev r)
  let dirf := fillna r.dir (dirDerOf prev r)
  let o1 : Option ℝ :=
    match r.o, sf with
    | none, some v => if 2 < v then dirf else none
    | none, none => none
    | some w, _ => some w
  let oFill : Option ℝ :=
    match o1 with
    | some w => some w
    | none => prev.bind PRow.o
  { r with s := sf, dir := dirf, o := oFill }

/-- The self-healing pass over the (sorted) table, keeping the processed
prefix so that per-track lookups (`diff` / `ffill`) see earlier rows of the
same track only. -/
noncomputable def healAux (done : List PRow) : List PRow → List PRow
  | [] => []
  | r :: rest =>
      let r2 := healRow (lastTrack done r) r
      r2 :: healAux (done ++ [r2]) rest

/-- Lines 131-178: the whole self-healing pass. -/
noncomputable def heal (df : List PRow) : List PRow := healAux [] df

/-- The `s_derived` column by itself (lines 139-145), one entry per row. -/
noncomputable def sDerCol (done : List PRow) : List PRow → List (Option ℝ)
  | [] => []
  | r :: rest => sDerOf (lastTrack done r) r :: sDerCol (done ++ [r]) rest

/-- `drop_duplicates(subset=key4, keep='last')`: keep a row iff no later row
has the same key. -/
def dedupKeepLast : List PRow → List PRow
  | [] => []
  | r :: rest =>
      if rest.any (fun q => decide (key4 q = key4 r)) then dedupKeepLast rest
      else r :: dedupKeepLast rest

/-- `ZoneCoverageETL.process_week_data` (modelled part): the empty-input
early return of lines 78-80 (`if input_df.empty: return pd.DataFrame()`),
then stitch, normalize, sort, self-heal, deduplicate (post-throw wins),
final sort. -/
noncomputable def process_week_data (input output : List PRow) : List PRow :=
  if input.isEmpty then []
  else
    let full :=
      if output.isEmpty then preTagged input
      else stitched input output
    let full1 := normalize_tracking_data full
    let full2 := List.insertionSort leGPNF full1
    let full3 := heal full2
    let full4 := dedupKeepLast full3
    List.insertionSort leGPF full4

/-! ## Stability of the sorting passes

pandas multi-column `sort_values` is stable (it is a lexsort), so it is
modelled by insertion sort; the lemmas below show the filtered subsequence of
any class of tied rows is unchanged by sorting. -/

lemma filter_orderedInsert_pos {α : Type} (r : α → α → Prop) [DecidableRel r]
    (q : α → Bool) (hq : ∀ a b, q a = true → q b = true → r a b)
    (a : α) (ha : q a = true) :
    ∀ l : List α, (List.orderedInsert r a l).filter q = a :: l.filter q
  | [] => by simp [List.orderedInsert, ha]
  | b :: l => by
    by_cases hr : r a b
    · simp [List.orderedInsert, hr, List.filter_cons, ha]
    · have hb : q b = false := by
        cases hqb : q b
        · rfl
        · exact absurd (hq a b ha hqb) hr
      simp [List.orderedInsert, hr, List.filter_cons, hb,
        filter_orderedInsert_pos r q hq a ha l]

lemma filter_orderedInsert_neg {α : Type} (r : α → α → Prop) [DecidableRel r]
    (q : α → Bool) (a : α) (ha : q a = false) :
    ∀ l : List α, (List.orderedInsert r a l).filter q = l.filter q
  | [] => by simp [List.orderedInsert, ha]
  | b :: l => by
    by_cases hr : r a b
    · simp [List.orderedInsert, hr, List.filter_cons, ha]
    · simp [List.orderedInsert, hr, List.filter_cons,
        filter_orderedInsert_neg r q a ha l]

lemma filter_insertionSort {α : Type} (r : α → α → Prop) [DecidableRel r]
    (q : α → Bool) (hq : ∀ a b, q a = true → q b = true → r a b) :
    ∀ l : List α, (List.insertionSort r l).filter q = l.filter q
  | [] => rfl
  | a :: l => by
    rw [List.insertionSort]
    by_cases ha : q a = true
    · rw [filter_orderedInsert_pos r q hq a ha, filter_insertionSort r q hq l,
        List.filter_cons, if_pos ha]
    · have ha' : q a = false := by simpa using ha
      rw [filter_orderedInsert_neg r q a ha', filter_insertionSort r q hq l,
        List.filter_cons]
      simp [ha']

lemma lex4_refl (t : ℤ × ℤ × ℤ × ℤ) : lex4 t t :=
  Or.inr ⟨rfl, Or.inr ⟨rfl, Or.inr ⟨rfl, le_refl _⟩⟩⟩

/-- The key-class filter used to analyse deduplication. -/
def qk (k : ℤ × ℤ × ℤ × ℤ) : PRow → Bool := fun x => decide (key4 x = k)

lemma qk_tied (k : ℤ × ℤ × ℤ × ℤ) :
    ∀ a b : PRow, qk k a = true → qk k b = true → leGPNF a b := by
  intro a b ha hb
  have ha' : key4 a = k := by simpa [qk] using ha
  have hb' : key4 b = k := by simpa [qk] using hb
  unfold leGPNF
  rw [ha', hb']
  exact lex4_refl k

/-! ## Deduplication (`drop_duplicates(keep='last')`) -/

lemma mem_of_mem_dedupKeepLast {a : PRow} :
    ∀ {l : List PRow}, a ∈ dedupKeepLast l → a ∈ l := by
  intro l
  induction l with
  | nil => simp [dedupKeepLast]
  | cons r rest ih =>
    rw [dedupKeepLast]
    split
    · intro h
      exact List.mem_cons_of_mem r (ih h)
    · intro h
      rcases List.mem_cons.mp h with h | h
      · exact h ▸ List.mem_cons_self r rest
      · exact List.mem_cons_of_mem r (ih h)

lemma dedupKeepLast_pairwise :
    ∀ l : List PRow, (dedupKeepLast l).Pairwise (fun a b => key4 a ≠ key4 b) := by
  intro l
  induction l with
  | nil => simp [dedupKeepLast]
  | cons r rest ih =>
    rw [dedupKeepLast]
    split
    · exact ih
    · rename_i hnone
      refine List.Pairwise.cons ?_ ih
      intro b hb hkey
      apply hnone
      rw [List.any_eq_true]
      exact ⟨b, mem_of_mem_dedupKeepLast hb, by simp [hkey]⟩

lemma filter_dedupKeepLast (k : ℤ × ℤ × ℤ × ℤ) :
    ∀ l : List PRow,
      (dedupKeepLast l).filter (qk k) = (l.filter (qk k)).getLast?.toList := by
  intro l
  induction l with
  | nil => simp [dedupKeepLast]
  | cons r rest ih =>
    rw [dedupKeepLast]
    split
    · rename_i hany
      rw [List.any_eq_true] at hany
      obtain ⟨w, hw, hwk⟩ := hany
      have hwk' : key4 w = key4 r := by simpa using hwk
      by_cases hk : key4 r = k
      · have hwrest : (rest.filter (qk k)) ≠ [] := by
          have : w ∈ rest.filter (qk k) :=
            List.mem_filter.mpr ⟨hw, by simp [qk, hwk', hk]⟩
          exact List.ne_nil_of_mem this
        rw [ih, List.filter_cons, if_pos (by simp [qk, hk])]
        obtain ⟨b, l2, hbl⟩ := List.exists_cons_of_ne_nil hwrest
        rw [hbl, List.getLast?_cons_cons]
      · rw [ih, List.filter_cons, if_neg (by simp [qk, hk])]
    · rename_i hnone
      have hrest : rest.filter (qk k) = [] ∨ ¬ key4 r = k := by
        by_cases hk : key4 r = k
        · left
          rw [List.filter_eq_nil_iff]
          intro w hw hwq
          apply hnone
          rw [List.any_eq_true]
          have : key4 w = k := by simpa [qk] using hwq
          exact ⟨w, hw, by simp [this, hk]⟩
        · right; exact hk
      by_cases hk : key4 r = k
      · have hrest' : rest.filter (qk k) = [] := by
          rcases hrest with h | h
          · exact h
          · exact absurd hk h
        have hded : (dedupKeepLast rest).filter (qk k) = [] := by
          rw [ih, hrest']
          rfl
        rw [List.filter_cons, if_pos (by simp [qk, hk]), hded,
          List.filter_cons, if_pos (by simp [qk, hk]), hrest']
        rfl
      · rw [List.filter_cons, if_neg (by simp [qk, hk]), ih,
          List.filter_cons, if_neg (by simp [qk, hk])]

/-! ## What the pipeline preserves row-by-row -/

/-- The part of a row that the self-healing pass never touches: key, phase
and raw coordinates. -/
def sig (r : PRow) : (ℤ × ℤ × ℤ × ℤ) × String × ℝ × ℝ :=
  (key4 r, r.phase, r.x, r.y)

lemma healRow_sig (prev : Option PRow) (r : PRow) :
    sig (healRow prev r) = sig r := rfl

lemma healAux_map_sig : ∀ (L done : List PRow),
    (healAux done L).map sig = L.map sig := by
  intro L
  induction L with
  | nil => intro done; rfl
  | cons r rest ih =>
    intro done
    simp only [healAux, List.map_cons, healRow_sig, ih]

lemma heal_map_sig (L : List PRow) : (heal L).map sig = L.map sig :=
  healAux_map_sig L []

lemma key4_normRow (r : PRow) : key4 (normRow r) = key4 r := by
  unfold normRow
  split <;> rfl

lemma phase_normRow (r : PRow) : (normRow r).phase = r.phase := by
  unfold normRow
  split <;> rfl

lemma qk_comp_normRow (k : ℤ × ℤ × ℤ × ℤ) :
    (qk k ∘ normRow) = qk k := by
  funext x
  simp [qk, Function.comp, key4_normRow]

/-- `sig`-level filter: filtering rows by key class commutes with `sig`. -/
lemma map_sig_filter (k : ℤ × ℤ × ℤ × ℤ) (L : List PRow) :
    (L.filter (qk k)).map sig =
      (L.map sig).filter (fun t => decide (t.1 = k)) := by
  have hcomp : ((fun t : (ℤ × ℤ × ℤ × ℤ) × String × ℝ × ℝ => decide (t.1 = k)) ∘ sig)
      = qk k := by
    funext x
    simp [qk, sig, Function.comp]
  rw [List.filter_map, hcomp]

/-- With the empty-input early return out of the way, both output branches
of the week-processing code are the same pipeline: when the post-event table
is empty, `postShifted` contributes nothing. -/
lemma process_week_data_eq (input output : List PRow) (hin : input ≠ []) :
    process_week_data input output =
      List.insertionSort leGPF (dedupKeepLast (heal (List.insertionSort leGPNF
        (normalize_tracking_data (stitched input output))))) := by
  have hinE : input.isEmpty = false := by
    simpa [List.isEmpty_iff] using hin
  by_cases h : output.isEmpty
  · have hnil : output = [] := List.isEmpty_iff.mp h
    simp only [process_week_data, hinE, Bool.false_eq_true, if_false, h,
      if_true, stitched, hnil, postShifted, List.map_nil, List.append_nil,
      List.isEmpty_nil]
  · have h' : output.isEmpty = false := by simpa using h
    simp only [process_week_data, hinE, h', Bool.false_eq_true, if_false]

/-- The empty-input early return of lines 78-80. -/
lemma process_week_data_empty (output : List PRow) :
    process_week_data [] output = [] := rfl

/-- The surviving row of any key class: provided the week has pre-event rows
at all, `process_week_data` keeps exactly one row per occupied key, the one
corresponding to the last stitched occurrence, with its phase and its
normalized coordinates. -/
lemma survivor_spec (input output : List PRow) (k : ℤ × ℤ × ℤ × ℤ) (p : PRow)
    (hin : input ≠ [])
    (hlast : ((stitched input output).filter (qk k)).getLast? = some p) :
    ∃ r ∈ process_week_data input output,
      key4 r = k ∧ r.phase = p.phase ∧ r.x = (normRow p).x ∧ r.y = (normRow p).y := by
  set L0 := stitched input output with hL0
  set L1 := normalize_tracking_data L0 with hL1
  set L2 := List.insertionSort leGPNF L1 with hL2
  set L3 := heal L2 with hL3
  set L4 := dedupKeepLast L3 with hL4
  have hpw : process_week_data input output = List.insertionSort leGPF L4 :=
    process_week_data_eq input output hin
  -- normalization commutes with the key-class filter
  have hf1 : L1.filter (qk k) = (L0.filter (qk k)).map normRow := by
    rw [hL1]
    unfold normalize_tracking_data
    rw [List.filter_map, qk_comp_normRow]
  -- sorting is stable on the key class
  have hf2 : L2.filter (qk k) = L1.filter (qk k) :=
    filter_insertionSort leGPNF (qk k) (qk_tied k) L1
  -- healing preserves sig on the key class
  have hf3 : (L3.filter (qk k)).map sig = (L2.filter (qk k)).map sig := by
    rw [map_sig_filter, map_sig_filter, hL3, heal_map_sig]
  -- the last element of the pre-dedup key class
  have hlast1 : (L1.filter (qk k)).getLast? = some (normRow p) := by
    rw [hf1, List.getLast?_map, hlast]
    rfl
  have hlast3sig : ((L3.filter (qk k)).getLast?).map sig = some (sig (normRow p)) := by
    rw [← List.getLast?_map, hf3, List.getLast?_map, hf2, hlast1]
    rfl
  obtain ⟨r0, hr0⟩ : ∃ r0, (L3.filter (qk k)).getLast? = some r0 := by
    cases h : (L3.filter (qk k)).getLast? with
    | none => rw [h] at hlast3sig; simp at hlast3sig
    | some r0 => exact ⟨r0, rfl⟩
  have hr0sig : sig r0 = sig (normRow p) := by
    rw [hr0] at hlast3sig
    simpa using hlast3sig
  have hr0mem4 : r0 ∈ L4 := by
    have : r0 ∈ L4.filter (qk k) := by
      rw [hL4, filter_dedupKeepLast, hr0]
      simp
    exact List.mem_of_mem_filter this
  have hr0mem : r0 ∈ process_week_data input output := by
    rw [hpw]
    exact (List.perm_insertionSort leGPF L4).mem_iff.mpr hr0mem4
  have hr0key : key4 r0 = k := by
    have : r0 ∈ L3.filter (qk k) := List.mem_of_mem_getLast? hr0
    have := (List.mem_filter.mp this).2
    simpa [qk] using this
  refine ⟨r0, hr0mem, hr0key, ?_, ?_, ?_⟩
  · have : r0.phase = (normRow p).phase := congrArg (fun t => t.2.1) hr0sig
    rw [this, phase_normRow]
  · exact congrArg (fun t => t.2.2.1) hr0sig
  · exact congrArg (fun t => t.2.2.2) hr0sig

/-- In a list whose keys are pairwise distinct, a key determines the row. -/
lemma key_unique {l : List PRow} (h : l.Pairwise (fun a b => key4 a ≠ key4 b))
    {r1 r2 : PRow} (h1 : r1 ∈ l) (h2 : r2 ∈ l) (hk : key4 r1 = key4 r2) :
    r1 = r2 := by
  induction l with
  | nil => cases h1
  | cons a t ih =>
    rcases List.mem_cons.mp h1 with rfl | h1'
    · rcases List.mem_cons.mp h2 with rfl | h2'
      · rfl
      · exact absurd hk ((List.pairwise_cons.mp h).1 r2 h2')
    · rcases List.mem_cons.mp h2 with rfl | h2'
      · exact absurd hk.symm ((List.pairwise_cons.mp h).1 r1 h1')
      · exact ih (List.pairwise_cons.mp h).2 h1' h2'

lemma phase_mem_postShifted {input output : List PRow} {p : PRow}
    (h : p ∈ postShifted input output) : p.phase = "post_throw" := by
  obtain ⟨w, _, hw⟩ := List.mem_map.mp h
  rw [← hw]

lemma phase_mem_preTagged {input : List PRow} {q : PRow}
    (h : q ∈ preTagged input) : q.phase = "pre_throw" := by
  obtain ⟨w, _, hw⟩ := List.mem_map.mp h
  rw [← hw]

lemma mergeMeta_untouched (input : List PRow) (r : PRow) :
    (mergeMeta input r).game_id = r.game_id ∧
    (mergeMeta input r).play_id = r.play_id ∧
    (mergeMeta input r).nfl_id = r.nfl_id ∧
    (mergeMeta input r).frame_id = r.frame_id := by
  unfold mergeMeta
  split <;> exact ⟨rfl, rfl, rfl, rfl⟩

/-- Key of a shifted post-event row. -/
lemma key4_postShift (input : List PRow) (r : PRow) :
    key4 ((fun r =>
      let r1 := mergeMeta input r
      { r1 with
        frame_id := r1.frame_id + (offsetFor input r1.game_id r1.play_id).getD 0
        phase := "post_throw" }) r)
    = (r.game_id, r.play_id, r.nfl_id,
       r.frame_id + (offsetFor input r.game_id r.play_id).getD 0) := by
  obtain ⟨h1, h2, h3, h4⟩ := mergeMeta_untouched input r
  simp only [key4, h1, h2, h3, h4]

lemma offsetFor_none {input : List PRow} {g p : ℤ}
    (h : ∀ q ∈ input, ¬(q.game_id = g ∧ q.play_id = p)) :
    offsetFor input g p = none := by
  unfold offsetFor
  have : input.filter (fun q => decide (q.game_id = g ∧ q.play_id = p)) = [] := by
    rw [List.filter_eq_nil_iff]
    intro a ha
    simpa using h a ha
  rw [this]
  rfl

/-- Claim C6: in the stitched per-frame table returned for each week, every
`(game_id, play_id, nfl_id, frame_id)` key occurs in exactly one row
(pairwise-distinct keys), and whenever a post-event row collides on that key
with the surviving row's key, the surviving row is the post-event one. -/
theorem C6_unique_keys_post_wins (input output : List PRow) :
    ((process_week_data input output).Pairwise (fun a b => key4 a ≠ key4 b))
    ∧ (∀ r ∈ process_week_data input output, ∀ p ∈ postShifted input output,
        key4 p = key4 r → r.phase = "post_throw") := by
  rcases eq_or_ne input [] with rfl | hin
  · rw [process_week_data_empty]
    exact ⟨List.Pairwise.nil, fun r hr => absurd hr (List.not_mem_nil r)⟩
  have hpair : (process_week_data input output).Pairwise
      (fun a b => key4 a ≠ key4 b) := by
    rw [process_week_data_eq input output hin]
    exact (List.Perm.pairwise_iff (fun h => Ne.symm h)
      (List.perm_insertionSort leGPF _)).mpr (dedupKeepLast_pairwise _)
  refine ⟨hpair, ?_⟩
  intro r hr p hp hkey
  set k := key4 r with hk
  have hpfilter : p ∈ (postShifted input output).filter (qk k) :=
    List.mem_filter.mpr ⟨hp, by simp [qk, hkey]⟩
  have hne : (postShifted input output).filter (qk k) ≠ [] :=
    List.ne_nil_of_mem hpfilter
  have happ : (stitched input output).filter (qk k)
      = (preTagged input).filter (qk k)
        ++ (postShifted input output).filter (qk k) := by
    unfold stitched
    rw [List.filter_append]
  have hlastapp : ((stitched input output).filter (qk k)).getLast?
      = ((postShifted input output).filter (qk k)).getLast? := by
    rw [happ]
    exact List.getLast?_append_of_ne_nil _ hne
  obtain ⟨plast, hplast⟩ :
      ∃ pl, ((postShifted input output).filter (qk k)).getLast? = some pl := by
    cases h : ((postShifted input output).filter (qk k)).getLast? with
    | none => exact absurd (List.getLast?_eq_none_iff.mp h) hne
    | some pl => exact ⟨pl, rfl⟩
  have hplast_mem : plast ∈ postShifted input output :=
    List.mem_of_mem_filter (List.mem_of_mem_getLast? hplast)
  have hphase : plast.phase = "post_throw" := phase_mem_postShifted hplast_mem
  obtain ⟨r1, hr1mem, hr1key, hr1phase, _, _⟩ :=
    survivor_spec input output k plast hin (by rw [hlastapp, hplast])
  have : r1 = r := key_unique hpair hr1mem hr (by rw [hr1key])
  rw [← this, hr1phase, hphase]

/-- Claim C5 (amended): provided the week's filtered pre-event table is
nonempty (an empty one short-circuits the whole week to an empty output), a
play key present only in the post-event set is NOT dropped: its rows survive
with unshifted frame ids (offset `fillna(0)`) and phase `post_throw`; a play
with pre-event rows but no post-event rows is retained with only a
`pre_throw` phase. -/
theorem C5_amended_retention (input output : List PRow) :
    (input ≠ [] →
      ∀ p0 ∈ output,
      (∀ q ∈ input, ¬(q.game_id = p0.game_id ∧ q.play_id = p0.play_id)) →
      ∃ r ∈ process_week_data input output,
        key4 r = (p0.game_id, p0.play_id, p0.nfl_id, p0.frame_id)
        ∧ r.phase = "post_throw")
    ∧ (∀ q0 ∈ input,
      (∀ p ∈ output, ¬(p.game_id = q0.game_id ∧ p.play_id = q0.play_id)) →
      ∃ r ∈ process_week_data input output,
        key4 r = key4 q0 ∧ r.phase = "pre_throw") := by
  constructor
  · intro hin p0 hp0 hnopre
    have hoff : offsetFor input p0.game_id p0.play_id = none :=
      offsetFor_none hnopre
    set k : ℤ × ℤ × ℤ × ℤ := (p0.game_id, p0.play_id, p0.nfl_id, p0.frame_id)
      with hkdef
    have hshift : key4 ((fun r =>
        let r1 := mergeMeta input r
        { r1 with
          frame_id := r1.frame_id + (offsetFor input r1.game_id r1.play_id).getD 0
          phase := "post_throw" }) p0) = k := by
      rw [key4_postShift, hoff]
      simp
    have hp0' : ((fun r =>
        let r1 := mergeMeta input r
        { r1 with
          frame_id := r1.frame_id + (offsetFor input r1.game_id r1.play_id).getD 0
          phase := "post_throw" }) p0) ∈ postShifted input output :=
      List.mem_map_of_mem _ hp0
    have hpfilter : ((fun r =>
        let r1 := mergeMeta input r
        { r1 with
          frame_id := r1.frame_id + (offsetFor input r1.game_id r1.play_id).getD 0
          phase := "post_throw" }) p0) ∈ (postShifted input output).filter (qk k) :=
      List.mem_filter.mpr ⟨hp0', by simp [qk, hshift]⟩
    have hne : (postShifted input output).filter (qk k) ≠ [] :=
      List.ne_nil_of_mem hpfilter
    have happ : (stitched input output).filter (qk k)
        = (preTagged input).filter (qk k)
          ++ (postShifted input output).filter (qk k) := by
      unfold stitched
      rw [List.filter_append]
    have hlastapp : ((stitched input output).filter (qk k)).getLast?
        = ((postShifted input output).filter (qk k)).getLast? := by
      rw [happ]
      exact List.getLast?_append_of_ne_nil _ hne
    obtain ⟨plast, hplast⟩ :
        ∃ pl, ((postShifted input output).filter (qk k)).getLast? = some pl := by
      cases h : ((postShifted input output).filter (qk k)).getLast? with
      | none => exact absurd (List.getLast?_eq_none_iff.mp h) hne
      | some pl => exact ⟨pl, rfl⟩
    have hplast_mem : plast ∈ postShifted input output :=
      List.mem_of_mem_filter (List.mem_of_mem_getLast? hplast)
    obtain ⟨r1, hr1mem, hr1key, hr1phase, _, _⟩ :=
      survivor_spec input output k plast hin (by rw [hlastapp, hplast])
    exact ⟨r1, hr1mem, hr1key, by rw [hr1phase, phase_mem_postShifted hplast_mem]⟩
  · intro q0 hq0 hnopost
    have hin : input ≠ [] := List.ne_nil_of_mem hq0
    set k := key4 q0 with hkdef
    have hq0t : ({ q0 with phase := "pre_throw" } : PRow) ∈ preTagged input :=
      List.mem_map_of_mem _ hq0
    have hkeyt : key4 ({ q0 with phase := "pre_throw" } : PRow) = k := rfl
    have hqfilter : ({ q0 with phase := "pre_throw" } : PRow)
        ∈ (preTagged input).filter (qk k) :=
      List.mem_filter.mpr ⟨hq0t, by simp only [qk, decide_eq_true_eq]; exact hkeyt⟩
    have hnepre : (preTagged input).filter (qk k) ≠ [] :=
      List.ne_nil_of_mem hqfilter
    have hpostnil : (postShifted input output).filter (qk k) = [] := by
      rw [List.filter_eq_nil_iff]
      intro a ha
      obtain ⟨w, hw, hweq⟩ := List.mem_map.mp ha
      obtain ⟨h1, h2, h3, h4⟩ := mergeMeta_untouched input w
      intro haq
      have hak : key4 a = k := by simpa [qk] using haq
      have hag : a.game_id = w.game_id := by rw [← hweq]; exact h1
      have hap : a.play_id = w.play_id := by rw [← hweq]; exact h2
      have hkg : a.game_id = q0.game_id := congrArg (fun t => t.1) hak
      have hkp : a.play_id = q0.play_id := congrArg (fun t => t.2.1) hak
      exact hnopost w hw ⟨by rw [← hag, hkg], by rw [← hap, hkp]⟩
    have happ : (stitched input output).filter (qk k)
        = (preTagged input).filter (qk k) := by
      unfold stitched
      rw [List.filter_append, hpostnil, List.append_nil]
    obtain ⟨plast, hplast⟩ :
        ∃ pl, ((preTagged input).filter (qk k)).getLast? = some pl := by
      cases h : ((preTagged input).filter (qk k)).getLast? with
      | none => exact absurd (List.getLast?_eq_none_iff.mp h) hnepre
      | some pl => exact ⟨pl, rfl⟩
    have hplast_mem : plast ∈ preTagged input :=
      List.mem_of_mem_filter (List.mem_of_mem_getLast? hplast)
    obtain ⟨r1, hr1mem, hr1key, hr1phase, _, _⟩ :=
      survivor_spec input output k plast hin (by rw [happ, hplast])
    exact ⟨r1, hr1mem, hr1key, by rw [hr1phase, phase_mem_preTagged hplast_mem]⟩

/-- A concrete pre-event row: play `(1, 1)`, player 5, frame 4. -/
noncomputable def preRowA : PRow :=
  { game_id := 1, play_id := 1, nfl_id := 5, frame_id := 4
    x := 10, y := 10, s := some 3, a := some 1, dir := some 90, o := some 45
    player_name := some "Pre Guy", player_position := some "CB"
    player_role := some "Defensive Coverage", player_side := some "Defense"
    play_direction := none, ball_land_x := some 40, ball_land_y := some 25
    phase := "" }

/-- A concrete post-event row of a play `(2, 1)` that has no pre-event rows. -/
noncomputable def postRowB : PRow :=
  { preRowA with game_id := 2, nfl_id := 9, frame_id := 7, x := 20, y := 15 }

/-- A concrete post-event row of play `(1, 1)` whose shifted frame id
(`0 + offset 4`) collides with `preRowA`'s key `(1, 1, 5, 4)`. -/
noncomputable def postRowD : PRow :=
  { preRowA with frame_id := 0, x := 11, y := 12 }

/-- Claim C5 counterexample: play `(2, 1)` is present in the post-event set
only, yet the stitched output retains its row (with unshifted frame id 7 and
phase `post_throw`) — the play is not dropped, because the undefined offset is
`fillna(0)`-ed. -/
theorem C5_counterexample :
    ∃ r ∈ process_week_data [preRowA] [postRowB],
      r.game_id = 2 ∧ r.play_id = 1 ∧ r.frame_id = 7 ∧ r.phase = "post_throw" := by
  decide

theorem C5_amended_retention_witness :
    (∃ r ∈ process_week_data [preRowA] [postRowB],
      key4 r = (2, 1, 9, 7) ∧ r.phase = "post_throw")
    ∧ (∃ r ∈ process_week_data [preRowA] [postRowB],
      key4 r = key4 preRowA ∧ r.phase = "pre_throw") := by
  constructor
  · exact (C5_amended_retention [preRowA] [postRowB]).1 (List.cons_ne_nil _ _)
      postRowB (by simp) (by decide)
  · exact (C5_amended_retention [preRowA] [postRowB]).2 preRowA (by simp)
      (by decide)

lemma headD_mem {α : Type} (l : List α) (d : α) (h : l.isEmpty = false) :
    l.headD d ∈ l := by
  cases l with
  | nil => simp at h
  | cons a t => simp

theorem C6_unique_keys_post_wins_witness :
    ((process_week_data [preRowA] [postRowD]).Pairwise
      (fun a b => key4 a ≠ key4 b))
    ∧ ((process_week_data [preRowA] [postRowD]).headD preRowA).phase
        = "post_throw" := by
  refine ⟨(C6_unique_keys_post_wins [preRowA] [postRowD]).1, ?_⟩
  have hne : (process_week_data [preRowA] [postRowD]).isEmpty = false := by decide
  have hpmem : ((fun r =>
      let r1 := mergeMeta [preRowA] r
      { r1 with
        frame_id := r1.frame_id + (offsetFor [preRowA] r1.game_id r1.play_id).getD 0
        phase := "post_throw" }) postRowD) ∈ postShifted [preRowA] [postRowD] := by
    unfold postShifted
    exact List.mem_map_of_mem _ (List.mem_singleton_self postRowD)
  refine (C6_unique_keys_post_wins [preRowA] [postRowD]).2 _
    (headD_mem _ preRowA hne) _ hpmem ?_
  have h1 : key4 ((fun r =>
      let r1 := mergeMeta [preRowA] r
      { r1 with
        frame_id := r1.frame_id + (offsetFor [preRowA] r1.game_id r1.play_id).getD 0
        phase := "post_throw" }) postRowD) = (1, 1, 5, 4) := by decide
  have h2 : key4 ((process_week_data [preRowA] [postRowD]).headD preRowA)
      = (1, 1, 5, 4) := by decide
  rw [h1, h2]

/-! ## Claims C8 and C9: the Kinematics Recoverer -/

lemma sDerCol_getD : ∀ (L : List PRow) (done : List PRow) (i : ℕ)
    (h : i < L.length),
    (sDerCol done L).getD i none
      = sDerOf (lastTrack (done ++ L.take i) (L.get ⟨i, h⟩)) (L.get ⟨i, h⟩) := by
  intro L
  induction L with
  | nil =>
    intro done i h
    simp at h
  | cons r rest ih =>
    intro done i h
    cases i with
    | zero =>
      simp [sDerCol]
    | succ j =>
      have hj : j < rest.length := by simpa using h
      have hgd : (sDerCol done (r :: rest)).getD (j + 1) none
          = (sDerCol (done ++ [r]) rest).getD j none := by
        rw [sDerCol]
        simp
      rw [hgd, ih (done ++ [r]) j hj]
      have htake : done ++ [r] ++ rest.take j = done ++ (r :: rest).take (j + 1) := by
        rw [List.take_succ_cons, List.append_assoc]
        rfl
      rw [htake]
      rfl

/-- Claim C8: `s_derived` of a row is `sqrt(dx² + dy²) / 0.1` where
`(dx, dy)` is the delta to the most recent earlier row of the same
`(game_id, play_id, nfl_id)` track (so `none` on a track's first frame, and
deltas never cross track boundaries); consequently the derived speed of a
player whose track is stationary is 0 (or undefined), whatever any other
player's rows contain. -/
theorem C8_derived_speed (L : List PRow) (i : ℕ) (h : i < L.length) :
    ((sDerCol [] L).getD i none
      = (lastTrack (L.take i) (L.get ⟨i, h⟩)).map
          (fun q => Real.sqrt (((L.get ⟨i, h⟩).x - q.x) ^ 2
            + ((L.get ⟨i, h⟩).y - q.y) ^ 2) / 0.1))
    ∧ (∀ x0 y0 : ℝ,
        (∀ w ∈ L, trackKey w = trackKey (L.get ⟨i, h⟩) → w.x = x0 ∧ w.y = y0) →
        (sDerCol [] L).getD i none = none
        ∨ (sDerCol [] L).getD i none = some 0) := by
  have hmain := sDerCol_getD L [] i h
  rw [List.nil_append] at hmain
  constructor
  · rw [hmain]
    rfl
  · intro x0 y0 hstat
    cases hprev : lastTrack (L.take i) (L.get ⟨i, h⟩) with
    | none =>
      left
      rw [hmain, hprev]
      rfl
    | some q =>
      right
      have hqmem : q ∈ (L.take i).filter
          (fun w => decide (trackKey w = trackKey (L.get ⟨i, h⟩))) :=
        List.mem_of_mem_getLast? hprev
      have hqL : q ∈ L := List.mem_of_mem_take (List.mem_of_mem_filter hqmem)
      have hqtrack : trackKey q = trackKey (L.get ⟨i, h⟩) := by
        have := (List.mem_filter.mp hqmem).2
        simpa using this
      have hq0 : q.x = x0 ∧ q.y = y0 := hstat q hqL hqtrack
      have hi0 : (L.get ⟨i, h⟩).x = x0 ∧ (L.get ⟨i, h⟩).y = y0 :=
        hstat _ (List.get_mem L i h) rfl
      rw [hmain, hprev]
      simp only [sDerOf, Option.map_some']
      congr 1
      rw [hq0.1, hq0.2, hi0.1, hi0.2]
      simp [Real.sqrt_zero]

/-- A straight-line mover: player 1, one length unit per 0.1s frame. -/
noncomputable def mover (k : ℤ) (xv : ℝ) : PRow :=
  { preRowA with nfl_id := 1, frame_id := k, x := xv, y := 0 }

/-- A distant stationary player 2. -/
noncomputable def stayer (k : ℤ) : PRow :=
  { preRowA with nfl_id := 2, frame_id := k, x := 50, y := 50 }

/-- The interleaved two-player table of the kinematics-accuracy scenario. -/
noncomputable def kinTable : List PRow :=
  [mover 1 0, stayer 1, mover 2 1, stayer 2, mover 3 2, stayer 3]

theorem C8_derived_speed_witness :
    (sDerCol [] kinTable).getD 0 none = none
    ∧ (sDerCol [] kinTable).getD 2 none = some 10
    ∧ ((sDerCol [] kinTable).getD 3 none = none
       ∨ (sDerCol [] kinTable).getD 3 none = some 0) := by
  refine ⟨?_, ?_, ?_⟩
  · have h := (C8_derived_speed kinTable 0 (by norm_num [kinTable])).1
    rw [h]
    rfl
  · have h := (C8_derived_speed kinTable 2 (by norm_num [kinTable])).1
    rw [h]
    have hlast : lastTrack (kinTable.take 2)
        (kinTable.get ⟨2, by norm_num [kinTable]⟩) = some (mover 1 0) := rfl
    rw [hlast, Option.map_some']
    have hx : ((kinTable.get ⟨2, by norm_num [kinTable]⟩).x - (mover 1 0).x) = 1 := by
      show ((1 : ℝ) - 0) = 1
      norm_num
    have hy : ((kinTable.get ⟨2, by norm_num [kinTable]⟩).y - (mover 1 0).y) = 0 := by
      show ((0 : ℝ) - 0) = 0
      norm_num
    rw [hx, hy]
    norm_num [Real.sqrt_one]
  · refine (C8_derived_speed kinTable 3 (by norm_num [kinTable])).2 50 50 ?_
    intro w hw htrack
    have hkey : trackKey (kinTable.get ⟨3, by norm_num [kinTable]⟩)
        = (1, 1, 2) := rfl
    rw [hkey] at htrack
    fin_cases hw <;>
      first
        | exact ⟨rfl, rfl⟩
        | (exfalso; exact absurd htrack (by decide))

/-- Claim C9: the self-healing pass never changes a raw sensor value that is
present: whenever the raw `s` (resp. `dir`, `o`) of a frame is `some v`, the
healed frame carries exactly `some v`. -/
theorem C9_fill_policy (L : List PRow) :
    List.Forall₂ (fun r r2 =>
      (∀ v, r.s = some v → r2.s = some v) ∧
      (∀ v, r.dir = some v → r2.dir = some v) ∧
      (∀ v, r.o = some v → r2.o = some v)) L (heal L) := by
  suffices hgen : ∀ (M done : List PRow),
      List.Forall₂ (fun r r2 =>
        (∀ v, r.s = some v → r2.s = some v) ∧
        (∀ v, r.dir = some v → r2.dir = some v) ∧
        (∀ v, r.o = some v → r2.o = some v)) M (healAux done M) by
    exact hgen L []
  intro M
  induction M with
  | nil =>
    intro done
    exact List.Forall₂.nil
  | cons r rest ih =>
    intro done
    refine List.Forall₂.cons ?_ (ih _)
    refine ⟨?_, ?_, ?_⟩
    · intro v hv
      simp [healRow, fillna, hv]
    · intro v hv
      simp [healRow, fillna, hv]
    · intro v hv
      simp [healRow, fillna, hv]

theorem C9_fill_policy_witness :
    ((heal [preRowA]).headD preRowA).s = some 3
    ∧ ((heal [preRowA]).headD preRowA).dir = some 90
    ∧ ((heal [preRowA]).headD preRowA).o = some 45 := by
  have h := C9_fill_policy [preRowA]
  have hE : heal [preRowA] = [healRow (lastTrack [] preRowA) preRowA] := rfl
  rw [hE] at h ⊢
  cases h with
  | cons hP _ =>
    exact ⟨hP.1 3 rfl, hP.2.1 90 rfl, hP.2.2 45 rfl⟩

/-! ## The per-play analysis loop of `calculate_clv.py` (`main`, lines 178-318)

One frame of the master table as the analysis loop reads it.  The loop
consumes the healed master table, so the kinematic fields are plain reals
here (a play whose Victim still has missing `s`/`dir` is outside the scope of
the sign-convention claim, which explicitly assumes them non-missing). -/

structure CFrame where
  nfl_id : ℤ
  frame_id : ℤ
  phase : String
  x : ℝ
  y : ℝ
  s : ℝ
  dir : ℝ
  o : ℝ
  player_role : String
  player_position : String
  player_name : String

/-- One `(game_id, play_id)` group of the master table, with its play-level
columns.  Only `ball_land_x` is `pd.isna`-checked by the loop, so only it is
an `Option`. -/
structure CPlay where
  game_id : ℤ
  play_id : ℤ
  ball_land_x : Option ℝ
  ball_land_y : ℝ
  expected_points_added : ℝ
  pass_result : String
  frames : List CFrame

/-- The result-row dictionary appended by step 9 of the loop. -/
structure ResultRow where
  game_id : ℤ
  play_id : ℤ
  nfl_id : ℤ
  player_name : String
  player_position : String
  qb_name : String
  target_name : String
  decoy_name : Option String
  clv : ℝ
  recovery_tax : Option ℝ
  leak_cause : String
  epa : ℝ
  pass_result : String
  pass_length : ℝ

/-- The literal keys of the result dictionary (`calculate_clv.py` lines
308-318): the complete schema of a result row. -/
def resultFields : List String :=
  ["game_id", "play_id", "nfl_id", "player_name", "player_position",
   "qb_name", "target_name", "decoy_name", "clv", "recovery_tax",
   "leak_cause", "epa", "pass_result", "pass_length"]

/-- `pre_throw = play_data[play_data['phase'] == 'pre_throw']`. -/
def preOf (play : CPlay) : List CFrame :=
  play.frames.filter (fun r => r.phase = "pre_throw")

/-- `last_frame_pre = pre_throw['frame_id'].max()`. -/
def lastFramePre (play : CPlay) : ℤ :=
  (((preOf play).map CFrame.frame_id).max?).getD 0

/-- `window_start = last_frame_pre - 10`. -/
def windowStartOf (play : CPlay) : ℤ := lastFramePre play - 10

/-- `trick_window = pre_throw[pre_throw['frame_id'] >= window_start]`. -/
def trickWindow (play : CPlay) : List CFrame :=
  (preOf play).filter (fun r => windowStartOf play ≤ r.frame_id)

/-- `start_frame_data = trick_window[trick_window['frame_id'] == window_start]`. -/
def startFrameData (play : CPlay) : List CFrame :=
  (trickWindow play).filter (fun r => r.frame_id = windowStartOf play)

/-- Euclidean distance between two points. -/
noncomputable def distTo (x1 y1 x2 y2 : ℝ) : ℝ :=
  Real.sqrt ((x1 - x2) ^ 2 + (y1 - y2) ^ 2)

open Classical in
/-- pandas `idxmin` / the running-minimum loop of the decoy tracker: the
first element attaining the minimum of `f` (updates only on a strict
improvement). -/
noncomputable def argminBy (f : CFrame → ℝ) (l : List CFrame) : Option CFrame :=
  l.foldl (fun acc w =>
    match acc with
    | none => some w
    | some b => if f w < f b then some w else some b) none

/-- Steps A of the causality logic: the minimal circular difference between
the Victim's body orientation (converted by `(90 - o) % 360`) and the angle
from the Victim to the Passer. -/
noncomputable def visionError (qb subj : CFrame) : ℝ :=
  let vec_qb_deg := rmod (degrees (atan2 (qb.y - subj.y) (qb.x - subj.x))) 360
  let def_o_math := rmod (90 - subj.o) 360
  let diff_qb := |def_o_math - vec_qb_deg|
  min diff_qb (360 - diff_qb)

/-- The Puppeteer test (`vision_error_qb < 60`). -/
noncomputable def puppeteerEligible (qb subj : CFrame) : Prop :=
  visionError qb subj < 60

/-- `potential_decoys`: skill-position rows of the snapshot, excluding the
Targeted Receiver and the Passer. -/
def potentialDecoys (startF : List CFrame) (target_id qb_id : ℤ) : List CFrame :=
  startF.filter (fun r =>
    (r.player_position = "WR" ∨ r.player_position = "TE"
      ∨ r.player_position = "RB" ∨ r.player_position = "FB")
    ∧ r.nfl_id ≠ target_id ∧ r.nfl_id ≠ qb_id)

/-- The decoy-tracker loop: nearest potential decoy to the Victim. -/
noncomputable def bestDecoy (pds : List CFrame) (subj : CFrame) : Option CFrame :=
  argminBy (fun d => distTo d.x d.y subj.x subj.y) pds

/-- The Gravity test: the nearest potential decoy is within 10 yards and
moving faster than 3.0. -/
noncomputable def gravityEligible (startF : List CFrame) (qb subj : CFrame)
    (target_id : ℤ) : Prop :=
  match bestDecoy (potentialDecoys startF target_id qb.nfl_id) subj with
  | some d => distTo d.x d.y subj.x subj.y < 10 ∧ 3 < d.s
  | none => False

open Classical in
/-- Step 6 of the loop (lines 231-274): the causality label and optional
decoy name.  The Gravity test lives in the `else` branch of the Puppeteer
test. -/
noncomputable def classifyCause (startF : List CFrame) (qb subj : CFrame)
    (target_id : ℤ) : String × Option String :=
  if visionError qb subj < 60 then ("Puppeteer", none)
  else
    match bestDecoy (potentialDecoys startF target_id qb.nfl_id) subj with
    | some d =>
        if distTo d.x d.y subj.x subj.y < 10 ∧ 3 < d.s then
          ("Gravity", some d.player_name)
        else ("Unforced Error", none)
    | none => ("Unforced Error", none)

/-- One frame's closing component (step 7): velocity from speed and compass
direction, dotted with the epsilon-guarded unit vector toward the
ball-landing point. -/
noncomputable def closingOf (ball_x ball_y : ℝ) (r : CFrame) : ℝ :=
  let dir_rad := radians (90 - r.dir)
  let vx := r.s * Real.cos dir_rad
  let vy := r.s * Real.sin dir_rad
  let dx := ball_x - r.x
  let dy := ball_y - r.y
  let dist := Real.sqrt (dx ^ 2 + dy ^ 2) + 1e-6
  vx * (dx / dist) + vy * (dy / dist)

/-- `clv = -1 * closing_speed.mean()` over the Victim's window rows. -/
noncomputable def clvOf (ball_x ball_y : ℝ) (frames : List CFrame) : ℝ :=
  -((frames.map (closingOf ball_x ball_y)).sum / (frames.length : ℝ))

/-- Ordering of `post_throw.sort_values('frame_id')`. -/
def leFrame (r q : CFrame) : Prop := r.frame_id ≤ q.frame_id

instance : DecidableRel leFrame := fun a b => by
  unfold leFrame; infer_instance

noncomputable def dummyFrame : CFrame :=
  { nfl_id := 0, frame_id := 0, phase := "", x := 0, y := 0, s := 0, dir := 0
    o := 0, player_role := "", player_position := "", player_name := "" }

open Classical in
/-- Step 8 (lines 291-305): recovery tax over the first 10 sorted post-throw
rows, `NaN` (here `none`) when fewer than 10 exist. -/
noncomputable def recoveryTaxOf (ball_x ball_y : ℝ) (post : List CFrame) :
    Option ℝ :=
  if 10 ≤ post.length then
    let sorted := List.insertionSort leFrame post
    let start_row := sorted.getD 0 dummyFrame
    let end_row := sorted.getD 9 dummyFrame
    let dist_start := Real.sqrt ((start_row.x - ball_x) ^ 2 + (start_row.y - ball_y) ^ 2)
    let dist_end := Real.sqrt ((end_row.x - ball_x) ^ 2 + (end_row.y - ball_y) ^ 2)
    some (8.0 - (dist_start - dist_end))
  else none

open Classical in
/-- The whole per-play loop body of `main` (lines 178-318): `none` is the
loop's `continue` (the play is silently excluded). -/
noncomputable def analyzePlay (play : CPlay) : Option ResultRow :=
  match play.ball_land_x with
  | none => none
  | some ball_x =>
    let ball_y := play.ball_land_y
    let pre := preOf play
    if pre.isEmpty then none else
    let trick := trickWindow play
    if trick.isEmpty then none else
    let startF := startFrameData play
    let qbs := startF.filter (fun r => r.player_role = "Passer")
    match qbs.head? with
    | none => none
    | some qb =>
      let derived_pass_length := ball_x - qb.x
      if derived_pass_length < 8 then none else
      let defenders := startF.filter (fun r => r.player_role = "Defensive Coverage")
      match argminBy (fun d => distTo d.x d.y ball_x ball_y) defenders with
      | none => none
      | some subj =>
        let targets := startF.filter (fun r => r.player_role = "Targeted Receiver")
        let target_name :=
          match targets.head? with
          | some t => t.player_name
          | none => "Unknown"
        let target_id :=
          match targets.head? with
          | some t => t.nfl_id
          | none => -1
        let cause := classifyCause startF qb subj target_id
        let subjW := trick.filter (fun r => r.nfl_id = subj.nfl_id)
        if subjW.isEmpty then none else
        let post := play.frames.filter
          (fun r => r.phase = "post_throw" ∧ r.nfl_id = subj.nfl_id)
        some {
          game_id := play.game_id
          play_id := play.play_id
          nfl_id := subj.nfl_id
          player_name := subj.player_name
          player_position := subj.player_position
          qb_name := qb.player_name
          target_name := target_name
          decoy_name := cause.2
          clv := clvOf ball_x ball_y subjW
          recovery_tax := recoveryTaxOf ball_x ball_y post
          leak_cause := cause.1
          epa := play.expected_points_added
          pass_result := play.pass_result
          pass_length := derived_pass_length }

/-! ## Claim C2: the CLV sign convention -/

lemma closingOf_toward {ball_x ball_y : ℝ} {r : CFrame}
    (hs : 0 < r.s)
    (hd : 0 < Real.sqrt ((ball_x - r.x) ^ 2 + (ball_y - r.y) ^ 2))
    (hcos : Real.cos (radians (90 - r.dir))
      = (ball_x - r.x) / Real.sqrt ((ball_x - r.x) ^ 2 + (ball_y - r.y) ^ 2))
    (hsin : Real.sin (radians (90 - r.dir))
      = (ball_y - r.y) / Real.sqrt ((ball_x - r.x) ^ 2 + (ball_y - r.y) ^ 2)) :
    0 < closingOf ball_x ball_y r := by
  unfold closingOf
  set dx := ball_x - r.x with hdx
  set dy := ball_y - r.y with hdy
  set d := Real.sqrt (dx ^ 2 + dy ^ 2) with hdd
  have hsq : d ^ 2 = dx ^ 2 + dy ^ 2 := Real.sq_sqrt (by positivity)
  have heps : (0 : ℝ) < d + 1e-6 := by positivity
  simp only
  rw [hcos, hsin]
  have hring : r.s * (dx / d) * (dx / (d + 1e-6)) + r.s * (dy / d) * (dy / (d + 1e-6))
      = r.s * (dx ^ 2 + dy ^ 2) / (d * (d + 1e-6)) := by
    field_simp
    ring
  rw [hring, ← hsq]
  have hnum : 0 < r.s * d ^ 2 := by positivity
  have hden : 0 < d * (d + 1e-6) := by positivity
  exact div_pos hnum hden

lemma closingOf_away {ball_x ball_y : ℝ} {r : CFrame}
    (hs : 0 < r.s)
    (hd : 0 < Real.sqrt ((ball_x - r.x) ^ 2 + (ball_y - r.y) ^ 2))
    (hcos : Real.cos (radians (90 - r.dir))
      = -((ball_x - r.x) / Real.sqrt ((ball_x - r.x) ^ 2 + (ball_y - r.y) ^ 2)))
    (hsin : Real.sin (radians (90 - r.dir))
      = -((ball_y - r.y) / Real.sqrt ((ball_x - r.x) ^ 2 + (ball_y - r.y) ^ 2))) :
    closingOf ball_x ball_y r < 0 := by
  unfold closingOf
  set dx := ball_x - r.x with hdx
  set dy := ball_y - r.y with hdy
  set d := Real.sqrt (dx ^ 2 + dy ^ 2) with hdd
  have hsq : d ^ 2 = dx ^ 2 + dy ^ 2 := Real.sq_sqrt (by positivity)
  have heps : (0 : ℝ) < d + 1e-6 := by positivity
  simp only
  rw [hcos, hsin]
  have hring : r.s * -(dx / d) * (dx / (d + 1e-6)) + r.s * -(dy / d) * (dy / (d + 1e-6))
      = -(r.s * (dx ^ 2 + dy ^ 2) / (d * (d + 1e-6))) := by
    field_simp
    ring
  rw [hring, ← hsq]
  have hnum : 0 < r.s * d ^ 2 := by positivity
  have hden : 0 < d * (d + 1e-6) := by positivity
  simpa using div_pos hnum hden

lemma closingOf_still {ball_x ball_y : ℝ} {r : CFrame} (hs : r.s = 0) :
    closingOf ball_x ball_y r = 0 := by
  unfold closingOf
  simp only [hs]
  ring

lemma list_sum_neg : ∀ l : List ℝ, (∀ a ∈ l, a < 0) → l ≠ [] → l.sum < 0
  | [] => by
    intro _ h
    exact absurd rfl h
  | a :: l => by
    intro h _
    rw [List.sum_cons]
    rcases eq_or_ne l [] with rfl | hne
    · simpa using h a (by simp)
    · have hrec := list_sum_neg l (fun b hb => h b (List.mem_cons_of_mem _ hb)) hne
      have ha := h a (by simp)
      linarith

/-- Claim C2: a Victim moving directly toward the ball-landing point with
positive speed on every window frame gives `clv < 0`; moving directly away
gives `clv > 0`; a stationary Victim exactly at the landing point gives
`clv = 0` — for `clv` the mean of minus the closing components built from
speed, compass direction, and the epsilon-guarded unit vector to the ball. -/
theorem C2_clv_sign_convention (ball_x ball_y : ℝ) (frames : List CFrame) :
    (frames ≠ [] →
      (∀ r ∈ frames, 0 < r.s
        ∧ 0 < Real.sqrt ((ball_x - r.x) ^ 2 + (ball_y - r.y) ^ 2)
        ∧ Real.cos (radians (90 - r.dir))
            = (ball_x - r.x) / Real.sqrt ((ball_x - r.x) ^ 2 + (ball_y - r.y) ^ 2)
        ∧ Real.sin (radians (90 - r.dir))
            = (ball_y - r.y) / Real.sqrt ((ball_x - r.x) ^ 2 + (ball_y - r.y) ^ 2)) →
      clvOf ball_x ball_y frames < 0)
    ∧ (frames ≠ [] →
      (∀ r ∈ frames, 0 < r.s
        ∧ 0 < Real.sqrt ((ball_x - r.x) ^ 2 + (ball_y - r.y) ^ 2)
        ∧ Real.cos (radians (90 - r.dir))
            = -((ball_x - r.x) / Real.sqrt ((ball_x - r.x) ^ 2 + (ball_y - r.y) ^ 2))
        ∧ Real.sin (radians (90 - r.dir))
            = -((ball_y - r.y) / Real.sqrt ((ball_x - r.x) ^ 2 + (ball_y - r.y) ^ 2))) →
      0 < clvOf ball_x ball_y frames)
    ∧ (frames ≠ [] →
      (∀ r ∈ frames, r.s = 0 ∧ r.x = ball_x ∧ r.y = ball_y) →
      clvOf ball_x ball_y frames = 0) := by
  refine ⟨?_, ?_, ?_⟩
  · intro hne hto
    have hpos : 0 < (frames.map (closingOf ball_x ball_y)).sum := by
      refine List.sum_pos _ ?_ (by simpa using hne)
      intro a ha
      obtain ⟨r, hr, hra⟩ := List.mem_map.mp ha
      obtain ⟨h1, h2, h3, h4⟩ := hto r hr
      rw [← hra]
      exact closingOf_toward h1 h2 h3 h4
    have hlen : (0 : ℝ) < (frames.length : ℝ) := by
      have : 0 < frames.length := List.length_pos.mpr hne
      exact_mod_cast this
    unfold clvOf
    have := div_pos hpos hlen
    linarith
  · intro hne hto
    have hneg : (frames.map (closingOf ball_x ball_y)).sum < 0 := by
      refine list_sum_neg _ ?_ (by simpa using hne)
      intro a ha
      obtain ⟨r, hr, hra⟩ := List.mem_map.mp ha
      obtain ⟨h1, h2, h3, h4⟩ := hto r hr
      rw [← hra]
      exact closingOf_away h1 h2 h3 h4
    have hlen : (0 : ℝ) < (frames.length : ℝ) := by
      have : 0 < frames.length := List.length_pos.mpr hne
      exact_mod_cast this
    unfold clvOf
    have := div_neg_of_neg_of_pos hneg hlen
    linarith
  · intro _ hstill
    have hzero : (frames.map (closingOf ball_x ball_y)).sum = 0 := by
      refine List.sum_eq_zero ?_
      intro a ha
      obtain ⟨r, hr, hra⟩ := List.mem_map.mp ha
      rw [← hra]
      exact closingOf_still (hstill r hr).1
    unfold clvOf
    rw [hzero]
    simp

/-- Victim one yard short of the landing point, moving due east (compass 90°)
straight at it. -/
noncomputable def towardFrame : CFrame :=
  { nfl_id := 7, frame_id := 1, phase := "pre_throw", x := 39, y := 25
    s := 1, dir := 90, o := 0, player_role := "Defensive Coverage"
    player_position := "CB", player_name := "T" }

/-- Same position, moving due west (compass 270°), directly away. -/
noncomputable def awayFrame : CFrame := { towardFrame with dir := 270 }

/-- Stationary exactly at the landing point. -/
noncomputable def stillFrame : CFrame := { towardFrame with x := 40, s := 0 }

lemma radians_zero : radians 0 = 0 := by
  simp [radians]

lemma radians_neg180 : radians (-180) = -Real.pi := by
  unfold radians
  field_simp
  ring

theorem C2_clv_sign_convention_witness :
    clvOf 40 25 [towardFrame] < 0
    ∧ 0 < clvOf 40 25 [awayFrame]
    ∧ clvOf 40 25 [stillFrame] = 0 := by
  have hsqrt : Real.sqrt (((40 : ℝ) - 39) ^ 2 + ((25 : ℝ) - 25) ^ 2) = 1 := by
    norm_num [Real.sqrt_one]
  refine ⟨?_, ?_, ?_⟩
  · refine (C2_clv_sign_convention 40 25 [towardFrame]).1 (by simp) ?_
    intro r hr
    have hrt : r = towardFrame := by simpa using hr
    subst hrt
    refine ⟨by norm_num [towardFrame], ?_, ?_, ?_⟩
    · show 0 < Real.sqrt (((40 : ℝ) - 39) ^ 2 + ((25 : ℝ) - 25) ^ 2)
      rw [hsqrt]
      norm_num
    · show Real.cos (radians (90 - towardFrame.dir))
        = ((40 : ℝ) - 39) / Real.sqrt (((40 : ℝ) - 39) ^ 2 + ((25 : ℝ) - 25) ^ 2)
      rw [hsqrt]
      have h90 : (90 : ℝ) - towardFrame.dir = 0 := by norm_num [towardFrame]
      rw [h90, radians_zero, Real.cos_zero]
      norm_num
    · show Real.sin (radians (90 - towardFrame.dir))
        = ((25 : ℝ) - 25) / Real.sqrt (((40 : ℝ) - 39) ^ 2 + ((25 : ℝ) - 25) ^ 2)
      rw [hsqrt]
      have h90 : (90 : ℝ) - towardFrame.dir = 0 := by norm_num [towardFrame]
      rw [h90, radians_zero, Real.sin_zero]
      norm_num
  · refine (C2_clv_sign_convention 40 25 [awayFrame]).2.1 (by simp) ?_
    intro r hr
    have hrt : r = awayFrame := by simpa using hr
    subst hrt
    refine ⟨by norm_num [awayFrame, towardFrame], ?_, ?_, ?_⟩
    · show 0 < Real.sqrt (((40 : ℝ) - 39) ^ 2 + ((25 : ℝ) - 25) ^ 2)
      rw [hsqrt]
      norm_num
    · show Real.cos (radians (90 - awayFrame.dir))
        = -(((40 : ℝ) - 39) / Real.sqrt (((40 : ℝ) - 39) ^ 2 + ((25 : ℝ) - 25) ^ 2))
      rw [hsqrt]
      have h90 : (90 : ℝ) - awayFrame.dir = -180 := by
        norm_num [awayFrame, towardFrame]
      rw [h90, radians_neg180, Real.cos_neg, Real.cos_pi]
      norm_num
    · show Real.sin (radians (90 - awayFrame.dir))
        = -(((25 : ℝ) - 25) / Real.sqrt (((40 : ℝ) - 39) ^ 2 + ((25 : ℝ) - 25) ^ 2))
      rw [hsqrt]
      have h90 : (90 : ℝ) - awayFrame.dir = -180 := by
        norm_num [awayFrame, towardFrame]
      rw [h90, radians_neg180, Real.sin_neg, Real.sin_pi]
      norm_num
  · refine (C2_clv_sign_convention 40 25 [stillFrame]).2.2 (by simp) ?_
    intro r hr
    have hrt : r = stillFrame := by simpa using hr
    subst hrt
    refine ⟨rfl, rfl, rfl⟩

/-! ## Claim C1: the Causality Classifier combination rule -/

/-- Claim C1 (amended): the classifier evaluates the Puppeteer test first and
consults the Gravity test only when the Puppeteer test fails; the label is
`Puppeteer` whenever the Puppeteer test passes (even if the Gravity test
would also pass), `Gravity` when only the Gravity test passes, and
`Unforced Error` otherwise — the label `DualThreat` is never produced. -/
theorem C1_amended_classifier_precedence (startF : List CFrame)
    (qb subj : CFrame) (target_id : ℤ) :
    ((classifyCause startF qb subj target_id).1 = "Puppeteer"
      ∨ (classifyCause startF qb subj target_id).1 = "Gravity"
      ∨ (classifyCause startF qb subj target_id).1 = "Unforced Error")
    ∧ (puppeteerEligible qb subj →
        (classifyCause startF qb subj target_id).1 = "Puppeteer")
    ∧ (¬ puppeteerEligible qb subj → gravityEligible startF qb subj target_id →
        (classifyCause startF qb subj target_id).1 = "Gravity")
    ∧ (¬ puppeteerEligible qb subj → ¬ gravityEligible startF qb subj target_id →
        (classifyCause startF qb subj target_id).1 = "Unforced Error")
    ∧ (classifyCause startF qb subj target_id).1 ≠ "DualThreat" := by
  unfold classifyCause puppeteerEligible gravityEligible
  by_cases hv : visionError qb subj < 60
  · rw [if_pos hv]
    exact ⟨Or.inl rfl, fun _ => rfl, fun hn _ => absurd hv hn,
      fun hn _ => absurd hv hn, by decide⟩
  · rw [if_neg hv]
    cases hbd : bestDecoy (potentialDecoys startF target_id qb.nfl_id) subj with
    | none =>
      dsimp only
      exact ⟨Or.inr (Or.inr rfl), fun h => absurd h hv,
        fun _ hg => absurd hg not_false, fun _ _ => rfl, by decide⟩
    | some d =>
      dsimp only
      by_cases hcond : distTo d.x d.y subj.x subj.y < 10 ∧ 3 < d.s
      · rw [if_pos hcond]
        exact ⟨Or.inr (Or.inl rfl), fun h => absurd h hv, fun _ _ => rfl,
          fun _ hg => absurd hcond hg,
          show ("Gravity" : String) ≠ "DualThreat" from by decide⟩
      · rw [if_neg hcond]
        exact ⟨Or.inr (Or.inr rfl), fun h => absurd h hv,
          fun _ hg => absurd hg hcond, fun _ _ => rfl, by decide⟩

/-! ## A concrete play passing both the Puppeteer and the Gravity test -/

/-- Passer at `(20, 25)` in the window-start snapshot. -/
noncomputable def fQB : CFrame :=
  { nfl_id := 1, frame_id := 11, phase := "pre_throw", x := 20, y := 25
    s := 0, dir := 0, o := 0, player_role := "Passer"
    player_position := "QB", player_name := "Q B" }

/-- Victim at `(38, 25)`, body oriented straight at the Passer
(`o = 270`, compass west). -/
noncomputable def fSubj : CFrame :=
  { nfl_id := 7, frame_id := 11, phase := "pre_throw", x := 38, y := 25
    s := 1, dir := 90, o := 270, player_role := "Defensive Coverage"
    player_position := "CB", player_name := "D Back" }

/-- A fast skill-position decoy one yard from the Victim. -/
noncomputable def fDecoy : CFrame :=
  { nfl_id := 9, frame_id := 11, phase := "pre_throw", x := 39, y := 25
    s := 4, dir := 90, o := 90, player_role := "Other Route Runner"
    player_position := "WR", player_name := "Decoy Guy" }

/-- The Victim's row at the throw frame. -/
noncomputable def fSubj2 : CFrame := { fSubj with frame_id := 21 }

/-- A play whose window-start snapshot passes BOTH classifier tests, with no
post-throw rows for the Victim. -/
noncomputable def P0 : CPlay :=
  { game_id := 100, play_id := 1, ball_land_x := some 40, ball_land_y := 25
    expected_points_added := 0, pass_result := "C"
    frames := [fQB, fSubj, fDecoy, fSubj2] }

lemma startFrameData_P0 : startFrameData P0 = [fQB, fSubj, fDecoy] := rfl

lemma visionError_P0 : visionError fQB fSubj = 0 := by
  unfold visionError fQB fSubj
  simp only
  norm_num
  rw [atan2_zero_neg (-18) (by norm_num), degrees_pi]
  rw [rmod_eq_sub 180 360 0 (by norm_num) (by norm_num) (by norm_num)]
  rw [rmod_eq_sub (-180) 360 (-1) (by norm_num) (by norm_num) (by norm_num)]
  norm_num

lemma gravityEligible_P0 : gravityEligible (startFrameData P0) fQB fSubj (-1) := by
  unfold gravityEligible
  have hbd : bestDecoy (potentialDecoys (startFrameData P0) (-1) fQB.nfl_id) fSubj
      = some fDecoy := rfl
  rw [hbd]
  refine ⟨?_, by norm_num [fDecoy]⟩
  have : distTo fDecoy.x fDecoy.y fSubj.x fSubj.y
      = Real.sqrt (((39 : ℝ) - 38) ^ 2 + ((25 : ℝ) - 25) ^ 2) := rfl
  rw [this]
  have h1 : (((39 : ℝ) - 38) ^ 2 + ((25 : ℝ) - 25) ^ 2) = 1 := by norm_num
  rw [h1, Real.sqrt_one]
  norm_num

lemma classifyCause_P0 :
    classifyCause (startFrameData P0) fQB fSubj (-1) = ("Puppeteer", none) := by
  unfold classifyCause
  rw [if_pos]
  rw [visionError_P0]
  norm_num

lemma analyzePlay_P0 :
    analyzePlay P0 = some
      { game_id := P0.game_id
        play_id := P0.play_id
        nfl_id := fSubj.nfl_id
        player_name := fSubj.player_name
        player_position := fSubj.player_position
        qb_name := fQB.player_name
        target_name := "Unknown"
        decoy_name := none
        clv := clvOf 40 P0.ball_land_y [fSubj, fSubj2]
        recovery_tax := none
        leak_cause := "Puppeteer"
        epa := P0.expected_points_added
        pass_result := P0.pass_result
        pass_length := 40 - fQB.x } := by
  have h1 : P0.ball_land_x = some (40 : ℝ) := rfl
  have h2 : (preOf P0).isEmpty = false := rfl
  have h3 : (trickWindow P0).isEmpty = false := rfl
  have h4 : (startFrameData P0).filter (fun r => r.player_role = "Passer")
      = [fQB] := rfl
  have h5 : argminBy (fun d => distTo d.x d.y 40 P0.ball_land_y)
      ((startFrameData P0).filter (fun r => r.player_role = "Defensive Coverage"))
      = some fSubj := rfl
  have h6 : ((startFrameData P0).filter
      (fun r => r.player_role = "Targeted Receiver")).head?
      = (none : Option CFrame) := rfl
  have h7 : ((trickWindow P0).filter (fun r => r.nfl_id = fSubj.nfl_id)).isEmpty
      = false := rfl
  have h10 : (trickWindow P0).filter (fun r => r.nfl_id = fSubj.nfl_id)
      = [fSubj, fSubj2] := rfl
  have h8 : P0.frames.filter
      (fun r => r.phase = "post_throw" ∧ r.nfl_id = fSubj.nfl_id) = [] := rfl
  have h9 : ¬ ((40 : ℝ) - fQB.x < 8) := by norm_num [fQB]
  have h11 : recoveryTaxOf 40 P0.ball_land_y [] = none := rfl
  simp only [analyzePlay, h1, h2, h3, h4, h5, h6, h7, h10, h8, h9, h11,
    classifyCause_P0, List.head?_cons, Bool.false_eq_true, if_false]
  rfl

/-- Basic facts about the classifier output used by several claims: its
label is one of the three produced strings, and a non-null decoy identity
occurs exactly in the `Gravity` branch. -/
lemma classifyCause_spec (startF : List CFrame) (qb subj : CFrame) (tid : ℤ) :
    ((classifyCause startF qb subj tid).1 = "Puppeteer"
      ∨ (classifyCause startF qb subj tid).1 = "Gravity"
      ∨ (classifyCause startF qb subj tid).1 = "Unforced Error")
    ∧ ((classifyCause startF qb subj tid).2 ≠ none →
        (classifyCause startF qb subj tid).1 = "Gravity")
    ∧ (((classifyCause startF qb subj tid).1 = "Puppeteer"
        ∨ (classifyCause startF qb subj tid).1 = "Unforced Error") →
        (classifyCause startF qb subj tid).2 = none) := by
  unfold classifyCause
  by_cases hv : visionError qb subj < 60
  · rw [if_pos hv]
    exact ⟨Or.inl rfl, fun hd => absurd rfl hd, fun _ => rfl⟩
  · rw [if_neg hv]
    cases hbd : bestDecoy (potentialDecoys startF tid qb.nfl_id) subj with
    | none =>
      dsimp only
      exact ⟨Or.inr (Or.inr rfl), fun hd => absurd rfl hd, fun _ => rfl⟩
    | some d =>
      dsimp only
      by_cases hcond : distTo d.x d.y subj.x subj.y < 10 ∧ 3 < d.s
      · rw [if_pos hcond]
        refine ⟨Or.inr (Or.inl rfl), fun _ => rfl, ?_⟩
        intro hor
        rcases hor with h | h
        · exact absurd h (show ("Gravity" : String) ≠ "Puppeteer" from by decide)
        · exact absurd h (show ("Gravity" : String) ≠ "Unforced Error" from by decide)
      · rw [if_neg hcond]
        exact ⟨Or.inr (Or.inr rfl), fun hd => absurd rfl hd, fun _ => rfl⟩

/-- Destructuring of a successful run of the per-play loop: a produced row's
classification fields come from `classifyCause` on the window-start snapshot,
its `nfl_id` is the Victim's, and its recovery tax is computed from the
Victim's post-throw rows. -/
lemma analyzePlay_some_spec (play : CPlay) (row : ResultRow)
    (h : analyzePlay play = some row) :
    ∃ bx qb subj tid,
      play.ball_land_x = some bx
      ∧ row.leak_cause = (classifyCause (startFrameData play) qb subj tid).1
      ∧ row.decoy_name = (classifyCause (startFrameData play) qb subj tid).2
      ∧ row.nfl_id = subj.nfl_id
      ∧ row.recovery_tax = recoveryTaxOf bx play.ball_land_y
          (play.frames.filter
            (fun r => r.phase = "post_throw" ∧ r.nfl_id = subj.nfl_id)) := by
  unfold analyzePlay at h
  cases hball : play.ball_land_x with
  | none =>
    rw [hball] at h
    exact Option.noConfusion h
  | some bx =>
    rw [hball] at h
    dsimp only at h
    by_cases hpre : (preOf play).isEmpty = true
    · rw [if_pos hpre] at h
      exact Option.noConfusion h
    · rw [if_neg hpre] at h
      by_cases htrick : (trickWindow play).isEmpty = true
      · rw [if_pos htrick] at h
        exact Option.noConfusion h
      · rw [if_neg htrick] at h
        cases hqb : ((startFrameData play).filter
            (fun r => r.player_role = "Passer")).head? with
        | none =>
          rw [hqb] at h
          exact Option.noConfusion h
        | some qb =>
          rw [hqb] at h
          dsimp only at h
          by_cases hlen : bx - qb.x < 8
          · rw [if_pos hlen] at h
            exact Option.noConfusion h
          · rw [if_neg hlen] at h
            cases hsubj : argminBy (fun d => distTo d.x d.y bx play.ball_land_y)
                ((startFrameData play).filter
                  (fun r => r.player_role = "Defensive Coverage")) with
            | none =>
              rw [hsubj] at h
              exact Option.noConfusion h
            | some subj =>
              rw [hsubj] at h
              dsimp only at h
              by_cases hw : ((trickWindow play).filter
                  (fun r => r.nfl_id = subj.nfl_id)).isEmpty = true
              · rw [if_pos hw] at h
                exact Option.noConfusion h
              · rw [if_neg hw] at h
                injection h with h2
                refine ⟨bx, qb, subj,
                  (match ((startFrameData play).filter
                    (fun r => r.player_role = "Targeted Receiver")).head? with
                   | some t => t.nfl_id
                   | none => -1), rfl, ?_, ?_, ?_, ?_⟩ <;> rw [← h2]

/-- Claim C10: in every result row, the decoy identity is non-null only when
the play's label is `Gravity`; rows labelled `Puppeteer` or `Unforced Error`
carry a null `decoy_name`. -/
theorem C10_decoy_iff_gravity (play : CPlay) (row : ResultRow)
    (h : analyzePlay play = some row) :
    (row.decoy_name ≠ none → row.leak_cause = "Gravity")
    ∧ ((row.leak_cause = "Puppeteer" ∨ row.leak_cause = "Unforced Error") →
        row.decoy_name = none) := by
  obtain ⟨bx, qb, subj, tid, _, hleak, hdecoy, _, _⟩ := analyzePlay_some_spec play row h
  obtain ⟨_, hspec2, hspec3⟩ := classifyCause_spec (startFrameData play) qb subj tid
  constructor
  · intro hd
    rw [hleak]
    exact hspec2 (by rw [← hdecoy]; exact hd)
  · intro hor
    rw [hdecoy]
    exact hspec3 (by rw [← hleak]; exact hor)

theorem C10_decoy_iff_gravity_witness :
    (analyzePlay P0).map (fun r => r.decoy_name) = some none :=
  have hrow := (C10_decoy_iff_gravity P0 _ analyzePlay_P0).2 (Or.inl rfl)
  Eq.trans (congrArg (fun o => o.map (fun r => r.decoy_name)) analyzePlay_P0)
    (congrArg some hrow)

/-- Claim C3 (amended): a play whose Victim has fewer than 10 post-throw rows
still produces exactly one result row, with `recovery_tax` undefined (`none`,
not zero) while `clv` (a plain real) and `leak_cause` (one of the three
labels) are defined; the result-row schema has no `bia_efficiency` or
`reaction_delay` fields at all (see the counterexample on `resultFields`). -/
theorem C3_amended_post_undefined (play : CPlay) (row : ResultRow)
    (h : analyzePlay play = some row) :
    ((play.frames.filter
        (fun r => r.phase = "post_throw" ∧ r.nfl_id = row.nfl_id)).length < 10 →
      row.recovery_tax = none)
    ∧ (row.leak_cause = "Puppeteer" ∨ row.leak_cause = "Gravity"
        ∨ row.leak_cause = "Unforced Error") := by
  obtain ⟨bx, qb, subj, tid, _, hleak, _, hid, htax⟩ :=
    analyzePlay_some_spec play row h
  constructor
  · intro hshort
    rw [hid] at hshort
    rw [htax]
    unfold recoveryTaxOf
    rw [if_neg (by omega)]
  · rw [hleak]
    exact (classifyCause_spec (startFrameData play) qb subj tid).1

theorem C3_amended_post_undefined_witness :
    (analyzePlay P0).map (fun r => r.recovery_tax) = some none :=
  have hrow := (C3_amended_post_undefined P0 _ analyzePlay_P0).1 (by decide)
  Eq.trans (congrArg (fun o => o.map (fun r => r.recovery_tax)) analyzePlay_P0)
    (congrArg some hrow)

/-- Claim C3 counterexample: the result-row dictionary of the code has no
`bia_efficiency` and no `reaction_delay` key at all — the claim's assertion
that these fields exist (as null values) in every result row is false — while
`recovery_tax`, `clv` and `leak_cause` are present. -/
theorem C3_counterexample :
    ("bia_efficiency" ∉ resultFields) ∧ ("reaction_delay" ∉ resultFields)
    ∧ "recovery_tax" ∈ resultFields ∧ "clv" ∈ resultFields
    ∧ "leak_cause" ∈ resultFields := by
  decide

/-- Claim C4 (amended): the Play Context Resolver looks for the Passer only
among rows with `frame_id` exactly `window_start`; whenever that snapshot has
no Passer row — in particular whenever no row has `frame_id = window_start`
at all — the play is rejected.  There is no fallback to the window's earliest
frame. -/
theorem C4_amended_no_fallback (play : CPlay)
    (h : ∀ r ∈ startFrameData play, r.player_role ≠ "Passer") :
    analyzePlay play = none := by
  have hqbs : (startFrameData play).filter (fun r => r.player_role = "Passer")
      = [] := by
    rw [List.filter_eq_nil_iff]
    intro a ha
    simpa using h a ha
  unfold analyzePlay
  cases hball : play.ball_land_x with
  | none => rfl
  | some bx =>
    dsimp only
    by_cases hpre : (preOf play).isEmpty = true
    · rw [if_pos hpre]
    · rw [if_neg hpre]
      by_cases htrick : (trickWindow play).isEmpty = true
      · rw [if_pos htrick]
      · rw [if_neg htrick]
        rw [hqbs]
        rfl

/-- Pre-throw rows of a play whose window start (`max frame - 10 = -5`) is
below every available frame: a Passer row exists at the earliest frame 1, but
no row has `frame_id = -5`. -/
noncomputable def p4f1 : CFrame :=
  { nfl_id := 1, frame_id := 1, phase := "pre_throw", x := 20, y := 25
    s := 0, dir := 0, o := 0, player_role := "Passer"
    player_position := "QB", player_name := "Q B" }

noncomputable def p4f5 : CFrame := { p4f1 with frame_id := 5 }

/-- A play with only five pre-throw frames (1 and 5 present). -/
noncomputable def P4 : CPlay :=
  { game_id := 101, play_id := 2, ball_land_x := some 40, ball_land_y := 25
    expected_points_added := 0, pass_result := "C", frames := [p4f1, p4f5] }

/-- Claim C4 counterexample: `P4`'s trick window contains a Passer row at its
earliest frame (frame 1, and every window frame is ≥ 1), yet the window-start
snapshot (`frame_id = -5`) is empty and the play is rejected — there is no
fallback to the earliest available frame. -/
theorem C4_counterexample :
    ((trickWindow P4).filter
      (fun r => r.frame_id = 1 ∧ r.player_role = "Passer")).isEmpty = false
    ∧ (∀ r ∈ trickWindow P4, 1 ≤ r.frame_id)
    ∧ (startFrameData P4).isEmpty = true
    ∧ analyzePlay P4 = none := by
  refine ⟨rfl, by decide, rfl, rfl⟩

theorem C4_amended_no_fallback_witness :
    (∀ r ∈ startFrameData P4, r.player_role ≠ "Passer")
    ∧ analyzePlay P4 = none := by
  have h : ∀ r ∈ startFrameData P4, r.player_role ≠ "Passer" := by decide
  exact ⟨h, C4_amended_no_fallback P4 h⟩

/-- Claim C1 counterexample: play `P0` passes the Puppeteer test AND the
Gravity test on the same window-start snapshot, yet its label is
`Puppeteer`, not `DualThreat` (no input is ever labelled `DualThreat`). -/
theorem C1_counterexample :
    puppeteerEligible fQB fSubj
    ∧ gravityEligible (startFrameData P0) fQB fSubj (-1)
    ∧ (analyzePlay P0).map (fun r => r.leak_cause) = some "Puppeteer" := by
  refine ⟨?_, gravityEligible_P0, ?_⟩
  · unfold puppeteerEligible
    rw [visionError_P0]
    norm_num
  · rw [analyzePlay_P0]
    rfl

/-- The Victim of `P0` with its body turned away from the Passer (east,
`o = 90`), failing the Puppeteer test. -/
noncomputable def fSubjG : CFrame := { fSubj with o := 90 }

lemma visionError_fSubjG : visionError fQB fSubjG = 180 := by
  unfold visionError fQB fSubjG fSubj
  simp only
  norm_num
  rw [atan2_zero_neg (-18) (by norm_num), degrees_pi]
  rw [rmod_eq_sub 180 360 0 (by norm_num) (by norm_num) (by norm_num)]
  rw [rmod_eq_sub 0 360 0 (by norm_num) (by norm_num) (by norm_num)]
  norm_num

lemma gravityEligible_fSubjG :
    gravityEligible (startFrameData P0) fQB fSubjG (-1) := by
  unfold gravityEligible
  have hbd : bestDecoy (potentialDecoys (startFrameData P0) (-1) fQB.nfl_id) fSubjG
      = some fDecoy := rfl
  rw [hbd]
  refine ⟨?_, by norm_num [fDecoy]⟩
  have : distTo fDecoy.x fDecoy.y fSubjG.x fSubjG.y
      = Real.sqrt (((39 : ℝ) - 38) ^ 2 + ((25 : ℝ) - 25) ^ 2) := rfl
  rw [this]
  have h1 : (((39 : ℝ) - 38) ^ 2 + ((25 : ℝ) - 25) ^ 2) = 1 := by norm_num
  rw [h1, Real.sqrt_one]
  norm_num

theorem C1_amended_classifier_precedence_witness :
    (classifyCause (startFrameData P0) fQB fSubj (-1)).1 = "Puppeteer"
    ∧ (classifyCause (startFrameData P0) fQB fSubjG (-1)).1 = "Gravity" := by
  constructor
  · refine (C1_amended_classifier_precedence (startFrameData P0) fQB fSubj (-1)).2.1 ?_
    unfold puppeteerEligible
    rw [visionError_P0]
    norm_num
  · refine (C1_amended_classifier_precedence (startFrameData P0) fQB fSubjG
      (-1)).2.2.1 ?_ gravityEligible_fSubjG
    unfold puppeteerEligible
    rw [visionError_fSubjG]
    norm_num

end NFL
